import Mathlib

set_option linter.unusedVariables false

/-!
Shallow embedding of the movie-catalog web application (src/app.py and
src/tmdb.py): the external TMDB catalog client, the persistence rows
(User, Rating, Favorite) with their operations, authentication, language
negotiation, and the client-side search genre filter, together with
theorems settling the specification claims about them.
-/

/-- A JSON value, the shape of parsed response bodies (`r.json()`). -/
inductive JVal where
  | null
  | bool (b : Bool)
  | num (n : Int)
  | str (s : String)
  | arr (xs : List JVal)
  | obj (kvs : List (String × JVal))
deriving Repr

/-- Python truthiness of a JSON value (empty dict, empty list and empty string are falsy),
used by the `fallback or \x7b\x7d` expression in `safe_tmdb_request`. -/
def JVal.truthy : JVal → Bool
  | .null => false
  | .bool b => b
  | .num n => n != 0
  | .str s => !s.isEmpty
  | .arr xs => !xs.isEmpty
  | .obj kvs => !kvs.isEmpty

/-- Exceptions the Python code can raise to its caller. -/
inductive PyErr where
  | requestException   -- requests.get raised: connection error / timeout
  | jsonDecodeError    -- r.json() raised on a malformed body
  | attributeError     -- .get called on a non-dict value
  | typeError          -- slicing a non-list value
  | valueError         -- int() on a non-numeric string
deriving DecidableEq, Repr

/-- Outcome of one HTTP round-trip to the remote catalog service:
either the request itself raised (network error or timeout), or a
response arrived with a status code and a body (`none` = body that
`r.json()` cannot parse). -/
inductive HttpOutcome where
  | failure
  | response (status : Nat) (body : Option JVal)

/-- An outcome on which the claim's failure modes hold: network
error/timeout, non-2xx status, or malformed body. -/
def HttpOutcome.isFailure : HttpOutcome → Bool
  | .failure => true
  | .response status body => status != 200 || body.isNone

/-- Python `d.get(k, dflt)`: field lookup on a JSON object with a default;
raises AttributeError when the value is not a dict, as Python would. -/
def pyDictGet (v : JVal) (k : String) (dflt : JVal) : Except PyErr JVal :=
  match v with
  | .obj kvs =>
      match kvs.find? (fun kv => kv.1 == k) with
      | some kv => .ok kv.2
      | none => .ok dflt
  | _ => .error .attributeError

/-- Python dict assignment `params[k] = v` on an association list:
overwrite the existing binding or append a new one. -/
def setParam : List (String × String) → String → String → List (String × String)
  | [], k, v => [(k, v)]
  | (k', v') :: rest, k, v =>
      if k' == k then (k, v) :: rest else (k', v') :: setParam rest k v

/-- The observable shape of one `requests.get` call: URL, query
parameters, and the timeout argument (`none` when the call passes no
timeout at all). -/
structure HttpRequest where
  url : String
  params : List (String × String)
  timeout : Option Nat
deriving Repr

/-- Lookup of a query parameter in a request, first binding wins. -/
def HttpRequest.getParam (r : HttpRequest) (k : String) : Option String :=
  (r.params.find? (fun kv => kv.1 == k)).map (fun kv => kv.2)

namespace Tmdb

/-- src/tmdb.py `get_tmdb_language`: `"hu-HU" if session.get("lang", "hu")
== "hu" else "en-US"`. The session language is `none` when unset. -/
def get_tmdb_language (sessionLang : Option String) : String :=
  if sessionLang.getD "hu" == "hu" then "hu-HU" else "en-US"

/-- src/tmdb.py `safe_tmdb_request`, value level: fallback (or the empty mapping when
the fallback is absent or falsy) on a raised request, a non-200 status,
or a body `r.json()` cannot parse; otherwise the parsed body. -/
def safe_tmdb_request (fallback : Option JVal) (o : HttpOutcome) : JVal :=
  let fb := match fallback with
    | some v => if v.truthy then v else .obj []
    | none => .obj []
  match o with
  | .failure => fb
  | .response status body =>
      if status != 200 then fb
      else match body with
        | some v => v
        | none => fb

/-- src/tmdb.py `safe_tmdb_request`, request level: the `requests.get`
call it issues — base URL plus endpoint, the caller's params with the
api key set, and an explicit 5-second timeout. -/
def safe_tmdb_request_sent (apiKey endpoint : String)
    (params : List (String × String)) : HttpRequest :=
  { url := "https://api.themoviedb.org/3/" ++ endpoint
    params := setParam params "api_key" apiKey
    timeout := some 5 }

/-- src/tmdb.py `get_popular_movies`, value level:
a safe request for endpoint movie/popular whose fallback maps "results" to the empty list, then
`data.get("results", [])`. -/
def get_popular_movies (o : HttpOutcome) : Except PyErr JVal :=
  pyDictGet (safe_tmdb_request (some (.obj [("results", .arr [])])) o)
    "results" (.arr [])

/-- src/tmdb.py `get_popular_movies`, request level. -/
def get_popular_movies_sent (apiKey : String) (sessionLang : Option String) :
    HttpRequest :=
  safe_tmdb_request_sent apiKey "movie/popular"
    [("language", get_tmdb_language sessionLang)]

/-- src/tmdb.py `get_movie_details`, value level: `safe_tmdb_request`
with the empty mapping as fallback and the body returned as-is. -/
def get_movie_details (o : HttpOutcome) : JVal :=
  safe_tmdb_request (some (.obj [])) o

/-- src/tmdb.py `get_movie_details`, request level. -/
def get_movie_details_sent (apiKey : String) (sessionLang : Option String)
    (movieId : Nat) : HttpRequest :=
  safe_tmdb_request_sent apiKey ("movie/" ++ toString movieId)
    [("language", get_tmdb_language sessionLang)]

/-- src/tmdb.py `get_similar_movies`, value level:
`data.get("results", [])[:limit]`; slicing a non-list raises. -/
def get_similar_movies (o : HttpOutcome) (limit : Nat) : Except PyErr JVal := do
  let res ← pyDictGet (safe_tmdb_request (some (.obj [("results", .arr [])])) o)
    "results" (.arr [])
  match res with
  | .arr xs => .ok (.arr (xs.take limit))
  | _ => .error .typeError

/-- src/tmdb.py `get_similar_movies`, request level: the language param
is the literal `"en-US"`; the session language is never consulted. -/
def get_similar_movies_sent (apiKey : String) (sessionLang : Option String)
    (movieId : Nat) : HttpRequest :=
  safe_tmdb_request_sent apiKey ("movie/" ++ toString movieId ++ "/similar")
    [("language", "en-US")]

/-- src/tmdb.py `get_genres`, value level: the fallback maps "genres" to the empty list,
then `data.get("genres", [])`. -/
def get_genres (o : HttpOutcome) : Except PyErr JVal :=
  pyDictGet (safe_tmdb_request (some (.obj [("genres", .arr [])])) o)
    "genres" (.arr [])

/-- src/tmdb.py `get_genres`, request level. -/
def get_genres_sent (apiKey : String) (sessionLang : Option String) :
    HttpRequest :=
  safe_tmdb_request_sent apiKey "genre/movie/list"
    [("language", get_tmdb_language sessionLang)]

end Tmdb

namespace App

/-- src/app.py `get_tmdb_language`: `"en-US" if lang == "en" else
"hu-HU"` with `lang = session.get("lang", "hu")`. -/
def get_tmdb_language (sessionLang : Option String) : String :=
  if sessionLang.getD "hu" == "en" then "en-US" else "hu-HU"

/-- src/app.py `get_popular_movies`, value level: `requests.get(url,
params=params).json()` with no try/except and no status check, then
`response.get("results", [])`. A raised request or malformed body
propagates to the caller. -/
def get_popular_movies (o : HttpOutcome) : Except PyErr JVal :=
  match o with
  | .failure => .error .requestException
  | .response _ body =>
      match body with
      | none => .error .jsonDecodeError
      | some v => pyDictGet v "results" (.arr [])

/-- src/app.py `get_popular_movies`, request level: `requests.get` is
called with no timeout argument. -/
def get_popular_movies_sent (apiKey : String) (sessionLang : Option String) :
    HttpRequest :=
  { url := "https://api.themoviedb.org/3/movie/popular"
    params := [("api_key", apiKey),
               ("language", get_tmdb_language sessionLang),
               ("page", "1")]
    timeout := none }

/-- src/app.py `set_language`: any path value other than `"hu"` or
`"en"` is coerced to `"hu"` before being stored in the session. -/
def set_language (lang : String) : String :=
  if !(lang == "hu" || lang == "en") then "hu" else lang

/-- The stored credential of a User: either a raw password (never
produced by the code) or a salted hash. -/
inductive Credential where
  | raw (p : String)
  | hashed (salt : String) (digest : String)
deriving DecidableEq, Repr

/-- Modelled from the spec: `werkzeug.security.generate_password_hash`
(library code, not under src/) — "stores a salted hash of the password —
never the raw password". `kdf` is the key-derivation function applied to
(password, salt) and `salt` the freshly generated salt. -/
def generate_password_hash (kdf : String → String → String)
    (salt password : String) : Credential :=
  .hashed salt (kdf password salt)

/-- Modelled from the spec: `werkzeug.security.check_password_hash`
(library code, not under src/) — "verifyPassword(plain, hash) -> bool";
recomputes the KDF over the supplied password with the stored salt and
compares with the stored digest. -/
def check_password_hash (kdf : String → String → String)
    (cred : Credential) (password : String) : Bool :=
  match cred with
  | .hashed salt digest => kdf password salt == digest
  | .raw _ => false

/-- A row of the `users` table: username (unique), email (unique) and
the password hash; `User.set_password` stores
`generate_password_hash(password)`. -/
structure UserRow where
  username : String
  email : String
  password_hash : Credential
deriving DecidableEq, Repr

/-- src/app.py `register`, POST path: looks for an existing user with
the same username OR the same email; on a hit flashes a conflict and
leaves the table unchanged (`false`), otherwise appends the new user
with a hashed credential (`true`). -/
def register (kdf : String → String → String) (users : List UserRow)
    (username email password salt : String) : List UserRow × Bool :=
  if users.any (fun u => u.username == username || u.email == email) then
    (users, false)
  else
    (users ++ [⟨username, email, generate_password_hash kdf salt password⟩],
     true)

/-- src/app.py `login`, POST path: the first user whose username or
email equals the identifier is checked against the supplied password;
both "no such user" and "wrong password" end in the same `none`. -/
def login (kdf : String → String → String) (users : List UserRow)
    (identifier password : String) : Option UserRow :=
  match users.find? (fun u => u.username == identifier
                              || u.email == identifier) with
  | some u => if check_password_hash kdf u.password_hash password
              then some u else none
  | none => none

/-- A row of the `ratings` table (the `id` column plays no role in the
claims; rows are kept in insertion order as `.first()` sees them). -/
structure RatingRow where
  user_id : Nat
  movie_id : Nat
  rating : Int
deriving DecidableEq, Repr

/-- Does a rating row belong to the (user, movie) pair? -/
def RatingRow.isPair (r : RatingRow) (uid mid : Nat) : Bool :=
  r.user_id == uid && r.movie_id == mid

/-- `existing.rating = rating_value`: mutate the first row matching the
pair in place, leaving every other row alone. -/
def updateFirstRating : List RatingRow → Nat → Nat → Int → List RatingRow
  | [], _, _, _ => []
  | r :: rest, uid, mid, v =>
      if r.isPair uid mid then { r with rating := v } :: rest
      else r :: updateFirstRating rest uid mid v

/-- src/app.py `rate_movie`: if a Rating row for (current_user,
movie_id) exists its value is overwritten, otherwise a new row is
appended — the read-then-write upsert. -/
def rate_movie (st : List RatingRow) (uid mid : Nat) (v : Int) :
    List RatingRow :=
  if st.any (fun r => r.isPair uid mid) then updateFirstRating st uid mid v
  else st ++ [⟨uid, mid, v⟩]

/-- Number of Rating rows stored for a (user, movie) pair. -/
def ratingCount (st : List RatingRow) (uid mid : Nat) : Nat :=
  (st.filter (fun r => r.isPair uid mid)).length

/-- `Rating.query.filter_by(user_id=..., movie_id=...).first()`,
projected to the stored value. -/
def ratingOf (st : List RatingRow) (uid mid : Nat) : Option Int :=
  (st.find? (fun r => r.isPair uid mid)).map (fun r => r.rating)

/-- The uniqueness invariant of the `ratings` table: at most one row per
(user_id, movie_id) pair. -/
def RatingInv (st : List RatingRow) : Prop :=
  ∀ uid mid, ratingCount st uid mid ≤ 1

/-- A whole sequence of rate actions, applied in order. -/
def applyRatings (st : List RatingRow) (ops : List (Nat × Nat × Int)) :
    List RatingRow :=
  ops.foldl (fun s op => rate_movie s op.1 op.2.1 op.2.2) st

/-- `ratings = Rating.query.filter_by(movie_id=movie_id).all()` in
`movie_details`, projected to the rating values. -/
def ratingsFor (st : List RatingRow) (mid : Nat) : List Int :=
  (st.filter (fun r => r.movie_id == mid)).map (fun r => r.rating)

/-- Rounding a rational to the nearest integer with ties to even — the
rounding step of IEEE-754 binary64 arithmetic. -/
def roundHalfEven (q : ℚ) : ℤ :=
  if q - (⌊q⌋ : ℚ) < 1 / 2 then ⌊q⌋
  else if 1 / 2 < q - (⌊q⌋ : ℚ) then ⌊q⌋ + 1
  else if ⌊q⌋ % 2 = 0 then ⌊q⌋ else ⌊q⌋ + 1

/-- IEEE-754 binary64 rounding of a nonzero rational in the normal
range: scale to a 53-bit significand by the power of two given by the
binary logarithm, round to nearest with ties to even, and rescale. This
is the correctly-rounded double that CPython's int/int true division
returns (overflow and subnormals lie far outside what rating sums can
reach). -/
def roundToNearestDouble (q : ℚ) : ℚ :=
  if q = 0 then 0
  else
    (if q < 0 then -1 else 1)
      * (roundHalfEven (|q| * 2 ^ ((52 : ℤ) - Int.log 2 |q|)) : ℚ)
      * 2 ^ (Int.log 2 |q| - 52)

/-- src/app.py `movie_details` average: `sum(r.rating for r in ratings)
/ len(ratings) if ratings else None`; Python's int/int division produces
the correctly-rounded IEEE-754 double of the exact quotient, modelled as
`roundToNearestDouble` applied to the exact rational quotient. -/
def averageFor (st : List RatingRow) (mid : Nat) : Option ℚ :=
  let rs := st.filter (fun r => r.movie_id == mid)
  if rs.isEmpty then none
  else some (roundToNearestDouble
    ((((rs.map (fun r => r.rating)).sum : ℤ) : ℚ) / (rs.length : ℚ)))

/-- A row of the `favorites` table. -/
structure FavRow where
  user_id : Nat
  movie_id : Nat
deriving DecidableEq, Repr

/-- Does a favorite row belong to the (user, movie) pair? -/
def FavRow.isPair (f : FavRow) (uid mid : Nat) : Bool :=
  f.user_id == uid && f.movie_id == mid

/-- `db.session.delete(fav)` on the `.first()` match: drop the first row
matching the pair. -/
def eraseFirstFav : List FavRow → Nat → Nat → List FavRow
  | [], _, _ => []
  | f :: rest, uid, mid =>
      if f.isPair uid mid then rest else f :: eraseFirstFav rest uid mid

/-- src/app.py `add_favorite`: append a row only when none exists for
the pair; the Bool reports whether a row was added (`false` = the
"already a favorite" notice). -/
def add_favorite (st : List FavRow) (uid mid : Nat) : List FavRow × Bool :=
  if st.any (fun f => f.isPair uid mid) then (st, false)
  else (st ++ [⟨uid, mid⟩], true)

/-- src/app.py `remove_favorite`: delete the first matching row when one
exists; the Bool reports whether one was deleted (`false` = the
"not among your favorites" notice). -/
def remove_favorite (st : List FavRow) (uid mid : Nat) : List FavRow × Bool :=
  if st.any (fun f => f.isPair uid mid) then (eraseFirstFav st uid mid, true)
  else (st, false)

/-- Number of Favorite rows stored for a (user, movie) pair. -/
def favCount (st : List FavRow) (uid mid : Nat) : Nat :=
  (st.filter (fun f => f.isPair uid mid)).length

/-- The uniqueness invariant of the `favorites` table. -/
def FavInv (st : List FavRow) : Prop :=
  ∀ uid mid, favCount st uid mid ≤ 1

/-- Value of a nonempty all-digit character list, the digit run accepted
by Python `int`. -/
def digitsVal (ds : List Char) : Option Nat :=
  if !ds.isEmpty && ds.all Char.isDigit then
    some (ds.foldl (fun acc c => 10 * acc + (c.toNat - 48)) 0)
  else none

/-- Python `int(s)` on the genre request argument: optional surrounding
whitespace, an optional sign, then one or more decimal digits; `none`
when `int` would raise ValueError. -/
def pyToInt (s : String) : Option Int :=
  match ((s.toList.dropWhile Char.isWhitespace).reverse.dropWhile
      Char.isWhitespace).reverse with
  | '-' :: ds => (digitsVal ds).map (fun n => -(n : Int))
  | '+' :: ds => (digitsVal ds).map (fun n => (n : Int))
  | ds => (digitsVal ds).map (fun n => (n : Int))

/-- One remote search result, reduced to the fields the genre filter
touches: its id and its reported `genre_ids` list (`[]` models an
absent key, the default of `m.get("genre_ids", [])`). -/
structure MovieResult where
  movie_id : Int
  genre_ids : List Int
deriving DecidableEq, Repr

/-- src/app.py `search_results`, the client-side genre filter applied to
the remote results: a present, truthy genre argument other than `"0"` is
parsed with `int` (ValueError propagates) and keeps exactly the results
whose `genre_ids` contain it; otherwise the results pass unfiltered. -/
def search_results (genre : Option String) (remote : List MovieResult) :
    Except PyErr (List MovieResult) :=
  match genre with
  | none => .ok remote
  | some g =>
      if !g.isEmpty && g != "0" then
        match pyToInt g with
        | some gid => .ok (remote.filter (fun m => m.genre_ids.contains gid))
        | none => .error .valueError
      else .ok remote

end App

/-- A concrete toy key-derivation function used to instantiate the
hashing scheme in concrete evaluations. -/
def concatKdf (password salt : String) : String := password ++ "#" ++ salt

/-- On any failing outcome, `safe_tmdb_request` returns its (truthy)
fallback value. -/
theorem Tmdb.safe_tmdb_request_of_isFailure (o : HttpOutcome)
    (h : o.isFailure = true) (v : JVal) (hv : v.truthy = true) :
    Tmdb.safe_tmdb_request (some v) o = v := by
  cases o with
  | failure => simp [safe_tmdb_request, hv]
  | response status body =>
    cases body with
    | none => simp [safe_tmdb_request, hv, ite_self]
    | some w =>
      simp only [HttpOutcome.isFailure, Option.isNone_some, Bool.or_false] at h
      simp [safe_tmdb_request, hv, h]

/-- C1: the claim as stated — that every catalog fetch returns its
fallback instead of raising and that every request carries a 5-second
timeout — fails on the application-side popular-movies fetch
(src/app.py `get_popular_movies`, cited by the claim): on a network
failure or timeout the exception propagates to the caller, and the
request is issued with no timeout argument at all. -/
theorem C1_counterexample :
    App.get_popular_movies HttpOutcome.failure
      = Except.error PyErr.requestException
    ∧ (App.get_popular_movies_sent "key" none).timeout = none
    ∧ (App.get_popular_movies_sent "key" none).timeout ≠ some 5 := by
  refine ⟨rfl, rfl, ?_⟩
  simp [App.get_popular_movies_sent]

/-- C1 (amended): the fetch operations of the tmdb.py catalog client
(popular movies, movie detail, similar movies, genre list) return their
declared fallback value (empty list or empty mapping) on network error,
non-2xx response, timeout, or malformed body, never propagating an
exception, and every request they issue carries an explicit 5-second
timeout; the duplicate fetchers in src/app.py (popular movies among
them) issue requests with no timeout and propagate exceptions. -/
theorem C1_catalog_fallback (o : HttpOutcome) (h : o.isFailure = true)
    (apiKey : String) (sessionLang : Option String) (movieId limit : Nat) :
    Tmdb.get_popular_movies o = Except.ok (JVal.arr [])
    ∧ Tmdb.get_movie_details o = JVal.obj []
    ∧ Tmdb.get_similar_movies o limit = Except.ok (JVal.arr [])
    ∧ Tmdb.get_genres o = Except.ok (JVal.arr [])
    ∧ (Tmdb.get_popular_movies_sent apiKey sessionLang).timeout = some 5
    ∧ (Tmdb.get_movie_details_sent apiKey sessionLang movieId).timeout = some 5
    ∧ (Tmdb.get_similar_movies_sent apiKey sessionLang movieId).timeout = some 5
    ∧ (Tmdb.get_genres_sent apiKey sessionLang).timeout = some 5
    ∧ App.get_popular_movies HttpOutcome.failure
        = Except.error PyErr.requestException
    ∧ (App.get_popular_movies_sent apiKey sessionLang).timeout = none := by
  refine ⟨?_, ?_, ?_, ?_, rfl, rfl, rfl, rfl, rfl, rfl⟩
  · rw [Tmdb.get_popular_movies, Tmdb.safe_tmdb_request_of_isFailure o h
      (JVal.obj [("results", JVal.arr [])]) rfl]
    rfl
  · rw [Tmdb.get_movie_details]
    cases o with
    | failure => rfl
    | response status body =>
      cases body with
      | none => simp [Tmdb.safe_tmdb_request, JVal.truthy, ite_self]
      | some w =>
        simp only [HttpOutcome.isFailure, Option.isNone_some, Bool.or_false]
          at h
        simp [Tmdb.safe_tmdb_request, JVal.truthy, h]
  · rw [Tmdb.get_similar_movies, Tmdb.safe_tmdb_request_of_isFailure o h
      (JVal.obj [("results", JVal.arr [])]) rfl]
    show Except.ok (JVal.arr (List.take limit [])) = Except.ok (JVal.arr [])
    rw [List.take_nil]
  · rw [Tmdb.get_genres, Tmdb.safe_tmdb_request_of_isFailure o h
      (JVal.obj [("genres", JVal.arr [])]) rfl]
    rfl

/-- C1 witness: a 500 response makes the tmdb.py client return its
empty-list fallback. -/
theorem C1_witness :
    Tmdb.get_popular_movies (HttpOutcome.response 500 none)
      = Except.ok (JVal.arr []) :=
  (C1_catalog_fallback (HttpOutcome.response 500 none) rfl "key" none 1 10).1

/-- C7: the claim as stated fails on the code at an absent session
language: both language helpers default the session value to `"hu"` and
so send `"hu-HU"`, while the claim says any value other than `"hu"`,
absent included, maps to `"en-US"`; the src/app.py copy moreover maps
the non-`"hu"` value `"fr"` to `"hu-HU"`. -/
theorem C7_counterexample :
    Tmdb.get_tmdb_language none = "hu-HU"
    ∧ App.get_tmdb_language none = "hu-HU"
    ∧ Tmdb.get_tmdb_language none ≠ "en-US"
    ∧ App.get_tmdb_language (some "fr") = "hu-HU" := by
  refine ⟨rfl, rfl, ?_, rfl⟩
  decide

/-- C7 (amended): the language code sent to the remote service derives
from the session preference as follows. In the tmdb.py client, `"hu"`
and an absent preference (which defaults to `"hu"`) map to `"hu-HU"`
and any other value maps to `"en-US"`; in the src/app.py copy, `"en"`
maps to `"en-US"` and any other value, absent included, maps to
`"hu-HU"`. The two agree on every value `set_language` can store, and
the language query parameter each negotiated request carries is exactly
the helper's result. -/
theorem C7_language_negotiation (s : String) (sessionLang : Option String)
    (apiKey : String) (movieId : Nat) :
    Tmdb.get_tmdb_language (some "hu") = "hu-HU"
    ∧ Tmdb.get_tmdb_language none = "hu-HU"
    ∧ (s ≠ "hu" → Tmdb.get_tmdb_language (some s) = "en-US")
    ∧ App.get_tmdb_language (some "en") = "en-US"
    ∧ App.get_tmdb_language none = "hu-HU"
    ∧ (s ≠ "en" → App.get_tmdb_language (some s) = "hu-HU")
    ∧ (sessionLang = none ∨ sessionLang = some "hu" ∨ sessionLang = some "en"
        → Tmdb.get_tmdb_language sessionLang = App.get_tmdb_language sessionLang)
    ∧ (Tmdb.get_popular_movies_sent apiKey sessionLang).getParam "language"
        = some (Tmdb.get_tmdb_language sessionLang)
    ∧ (Tmdb.get_movie_details_sent apiKey sessionLang movieId).getParam
        "language" = some (Tmdb.get_tmdb_language sessionLang)
    ∧ (Tmdb.get_genres_sent apiKey sessionLang).getParam "language"
        = some (Tmdb.get_tmdb_language sessionLang) := by
  refine ⟨rfl, rfl, ?_, rfl, rfl, ?_, ?_, rfl, rfl, rfl⟩
  · intro hs
    simp [Tmdb.get_tmdb_language, hs]
  · intro hs
    simp [App.get_tmdb_language, hs]
  · rintro (rfl | rfl | rfl) <;> rfl

/-- C7 witness: a session language of `"fr"` is sent as `"en-US"` by the
tmdb.py helper. -/
theorem C7_witness : Tmdb.get_tmdb_language (some "fr") = "en-US" :=
  (C7_language_negotiation "fr" none "key" 1).2.2.1 (by decide)

/-- C8: `get_similar_movies` sends the literal language code `"en-US"`
for every session language — its request is independent of the session
preference — while the popular-movies fetch of the same client does vary
with the session language. -/
theorem C8_similar_language_pinned (apiKey : String)
    (sessionLang sessionLang' : Option String) (movieId : Nat) :
    (Tmdb.get_similar_movies_sent apiKey sessionLang movieId).getParam
      "language" = some "en-US"
    ∧ Tmdb.get_similar_movies_sent apiKey sessionLang movieId
        = Tmdb.get_similar_movies_sent apiKey sessionLang' movieId
    ∧ (Tmdb.get_popular_movies_sent apiKey (some "hu")).getParam "language"
        ≠ (Tmdb.get_popular_movies_sent apiKey (some "en")).getParam "language"
    := by
  refine ⟨rfl, rfl, ?_⟩
  simp [Tmdb.get_popular_movies_sent, Tmdb.safe_tmdb_request_sent,
    HttpRequest.getParam, setParam, Tmdb.get_tmdb_language]

/-- C8 witness: the similar-movies request built under a Hungarian
session still carries `"en-US"`. -/
theorem C8_witness :
    (Tmdb.get_similar_movies_sent "key" (some "hu") 42).getParam "language"
      = some "en-US" :=
  (C8_similar_language_pinned "key" (some "hu") none 42).1

/-- C10: whatever string arrives on the language-change path, the value
`set_language` stores in the session is `"hu"` or `"en"`: anything other
than exactly those two is coerced to `"hu"`, and the two legal values
are stored unchanged. -/
theorem C10_language_coercion (lang : String) :
    (App.set_language lang = "hu" ∨ App.set_language lang = "en")
    ∧ (lang ≠ "hu" ∧ lang ≠ "en" → App.set_language lang = "hu")
    ∧ ((lang = "hu" ∨ lang = "en") → App.set_language lang = lang) := by
  by_cases h1 : lang = "hu"
  · subst h1
    exact ⟨Or.inl rfl, fun h => absurd rfl h.1, fun _ => rfl⟩
  · by_cases h2 : lang = "en"
    · subst h2
      exact ⟨Or.inr rfl, fun h => absurd rfl h.2, fun _ => rfl⟩
    · have : App.set_language lang = "hu" := by
        simp [App.set_language, h1, h2]
      exact ⟨Or.inl this, fun _ => this,
        fun h => absurd h (by simp [h1, h2])⟩

/-- C10 witness: an unknown language code is stored as `"hu"`. -/
theorem C10_witness : App.set_language "de" = "hu" :=
  (C10_language_coercion "de").2.1 (by decide)

/-- Evaluation rule for the ties-to-even rounding when the value lies in
the lower half of an integer gap. -/
theorem roundHalfEven_eq_of_lt (q : ℚ) (n : ℤ) (h1 : (n : ℚ) ≤ q)
    (h2 : q < (n : ℚ) + 1 / 2) : App.roundHalfEven q = n := by
  have hfl : ⌊q⌋ = n := by
    rw [Int.floor_eq_iff]
    exact ⟨h1, by linarith⟩
  rw [App.roundHalfEven, hfl, if_pos (by linarith)]

/-- Ties-to-even rounding moves a rational by at most one half. -/
theorem roundHalfEven_close (q : ℚ) :
    |(App.roundHalfEven q : ℚ) - q| ≤ 1 / 2 := by
  have h0 : ((⌊q⌋ : ℚ)) ≤ q := Int.floor_le q
  have h1 : q < ⌊q⌋ + 1 := Int.lt_floor_add_one q
  rw [App.roundHalfEven]
  by_cases hlt : q - (⌊q⌋ : ℚ) < 1 / 2
  · rw [if_pos hlt, abs_le]
    constructor <;> linarith
  · rw [if_neg hlt]
    by_cases hgt : 1 / 2 < q - (⌊q⌋ : ℚ)
    · rw [if_pos hgt, abs_le]
      push_cast
      constructor <;> linarith
    · rw [if_neg hgt]
      by_cases hev : ⌊q⌋ % 2 = 0
      · rw [if_pos hev, abs_le]
        constructor <;> linarith
      · rw [if_neg hev, abs_le]
        push_cast
        constructor <;> linarith

/-- The binary64 rounding is correct to half an ulp: a positive rational
moves by at most 2 to the power (its binary logarithm minus 53). -/
theorem roundToNearestDouble_close (x : ℚ) (hx : 0 < x) :
    |App.roundToNearestDouble x - x| ≤ 2 ^ (Int.log 2 x - 53) := by
  have habs : |x| = x := abs_of_pos hx
  rw [App.roundToNearestDouble, if_neg (ne_of_gt hx),
    if_neg (not_lt.mpr hx.le), habs]
  have hpow : (0 : ℚ) < 2 ^ (Int.log 2 x - 52) := zpow_pos (by norm_num) _
  have hcancel : (2 : ℚ) ^ ((52 : ℤ) - Int.log 2 x)
      * 2 ^ (Int.log 2 x - 52) = 1 := by
    rw [← zpow_add₀ (by norm_num : (2 : ℚ) ≠ 0)]
    norm_num
  have key : (1 : ℚ)
        * (App.roundHalfEven (x * 2 ^ ((52 : ℤ) - Int.log 2 x)) : ℚ)
        * 2 ^ (Int.log 2 x - 52) - x
      = ((App.roundHalfEven (x * 2 ^ ((52 : ℤ) - Int.log 2 x)) : ℚ)
          - x * 2 ^ ((52 : ℤ) - Int.log 2 x)) * 2 ^ (Int.log 2 x - 52) := by
    have hx1 : x * ((2 : ℚ) ^ ((52 : ℤ) - Int.log 2 x)
        * 2 ^ (Int.log 2 x - 52)) = x := by
      rw [hcancel, mul_one]
    calc (1 : ℚ)
          * (App.roundHalfEven (x * 2 ^ ((52 : ℤ) - Int.log 2 x)) : ℚ)
          * 2 ^ (Int.log 2 x - 52) - x
        = (App.roundHalfEven (x * 2 ^ ((52 : ℤ) - Int.log 2 x)) : ℚ)
            * 2 ^ (Int.log 2 x - 52)
          - x * ((2 : ℚ) ^ ((52 : ℤ) - Int.log 2 x)
            * 2 ^ (Int.log 2 x - 52)) := by rw [hx1]; ring
      _ = ((App.roundHalfEven (x * 2 ^ ((52 : ℤ) - Int.log 2 x)) : ℚ)
            - x * 2 ^ ((52 : ℤ) - Int.log 2 x))
          * 2 ^ (Int.log 2 x - 52) := by ring
  rw [key, abs_mul, abs_of_pos hpow]
  have hb := roundHalfEven_close (x * 2 ^ ((52 : ℤ) - Int.log 2 x))
  have hstep : |(App.roundHalfEven (x * 2 ^ ((52 : ℤ) - Int.log 2 x)) : ℚ)
        - x * 2 ^ ((52 : ℤ) - Int.log 2 x)| * 2 ^ (Int.log 2 x - 52)
      ≤ (1 / 2) * 2 ^ (Int.log 2 x - 52) :=
    mul_le_mul_of_nonneg_right hb hpow.le
  refine hstep.trans (le_of_eq ?_)
  rw [show Int.log 2 x - 53 = (-1) + (Int.log 2 x - 52) by omega,
    zpow_add₀ (by norm_num : (2 : ℚ) ≠ 0)]
  norm_num

/-- C6: the claim's exact-mean conjunct fails on the code because
`movie_details` computes the average with Python float (IEEE-754
binary64) division: with the three stored ratings [1, 1, 2] for movie 7
the exact mean is 4/3, which is not a dyadic rational, so the returned
correctly-rounded double 6004799503160661/2^52 times 3 is not 4 and the
value is not the exact mean. -/
theorem C6_counterexample :
    App.averageFor [⟨1, 7, 1⟩, ⟨2, 7, 1⟩, ⟨3, 7, 2⟩] 7
      = some (6004799503160661 / 4503599627370496)
    ∧ App.ratingsFor [⟨1, 7, 1⟩, ⟨2, 7, 1⟩, ⟨3, 7, 2⟩] 7 = [1, 1, 2]
    ∧ ((6004799503160661 : ℚ) / 4503599627370496) * 3 ≠ 4
    ∧ ((6004799503160661 : ℚ) / 4503599627370496) ≠ 4 / 3 := by
  have hlog : Int.log 2 |(4 : ℚ) / 3| = 0 := by
    rw [(by norm_num : |(4 : ℚ) / 3| = 4 / 3),
      Int.log_of_one_le_right 2 (by norm_num : (1 : ℚ) ≤ 4 / 3),
      (by rw [Nat.floor_eq_iff (by norm_num)]; norm_num
        : ⌊(4 : ℚ) / 3⌋₊ = 1),
      Nat.log_one_right]
    rfl
  have hround : App.roundHalfEven
      (|(4 : ℚ) / 3| * 2 ^ ((52 : ℤ) - Int.log 2 |(4 : ℚ) / 3|))
      = 6004799503160661 := by
    rw [hlog, (by norm_num : |(4 : ℚ) / 3| = 4 / 3)]
    exact roundHalfEven_eq_of_lt _ 6004799503160661 (by norm_num)
      (by norm_num)
  have hval : App.roundToNearestDouble ((4 : ℚ) / 3)
      = 6004799503160661 / 4503599627370496 := by
    rw [App.roundToNearestDouble, if_neg (by norm_num : ¬((4 : ℚ) / 3 = 0)),
      if_neg (by norm_num : ¬((4 : ℚ) / 3 < 0)), hround, hlog]
    norm_num
  refine ⟨?_, by decide, by norm_num, by norm_num⟩
  rw [App.averageFor]
  norm_num [List.filter]
  exact hval

/-- C6 (amended): the local average is `none` exactly when the movie has
no stored ratings (the division never runs on an empty list); otherwise
it returns the IEEE-754 binary64 correctly-rounded value of the
arithmetic mean of the stored rating values — within half an ulp of the
exact mean, every positive rounded value sitting within 2 to the power
(binary logarithm minus 53) of its input — and on the stored ratings
[3, 5], whose mean 4 is exactly representable, it returns exactly 4. -/
theorem C6_average_rounded (st : List App.RatingRow) (mid : Nat) :
    (App.averageFor st mid = none ↔ App.ratingsFor st mid = [])
    ∧ (∀ q : ℚ, App.averageFor st mid = some q →
        q = App.roundToNearestDouble
          ((((App.ratingsFor st mid).sum : ℤ) : ℚ)
            / ((App.ratingsFor st mid).length : ℚ)))
    ∧ (∀ x : ℚ, 0 < x →
        |App.roundToNearestDouble x - x| ≤ 2 ^ (Int.log 2 x - 53))
    ∧ App.averageFor [⟨1, 7, 3⟩, ⟨2, 7, 5⟩] 7 = some 4 := by
  have hval4 : App.roundToNearestDouble (4 : ℚ) = 4 := by
    have hlog4 : Int.log 2 |(4 : ℚ)| = 2 := by
      rw [(by norm_num : |(4 : ℚ)| = 4),
        Int.log_of_one_le_right 2 (by norm_num : (1 : ℚ) ≤ 4),
        (by rw [Nat.floor_eq_iff (by norm_num)]; norm_num
          : ⌊(4 : ℚ)⌋₊ = 4),
        @Nat.log_eq_of_pow_le_of_lt_pow 2 2 4 (by norm_num) (by norm_num)]
      rfl
    have hround4 : App.roundHalfEven
        (|(4 : ℚ)| * 2 ^ ((52 : ℤ) - Int.log 2 |(4 : ℚ)|))
        = 4503599627370496 := by
      rw [hlog4, (by norm_num : |(4 : ℚ)| = 4)]
      exact roundHalfEven_eq_of_lt _ 4503599627370496 (by norm_num)
        (by norm_num)
    rw [App.roundToNearestDouble, if_neg (by norm_num : ¬((4 : ℚ) = 0)),
      if_neg (by norm_num : ¬((4 : ℚ) < 0)), hround4, hlog4]
    norm_num
  refine ⟨?_, ?_, fun x hx => roundToNearestDouble_close x hx, ?_⟩
  · rw [App.averageFor, App.ratingsFor]
    rcases h : st.filter (fun r => r.movie_id == mid) with _ | ⟨r, rs⟩
    · simp
    · simp
  · intro q hq
    rw [App.averageFor] at hq
    rcases h : st.filter (fun r => r.movie_id == mid) with _ | ⟨r, rs⟩
    · rw [h] at hq
      simp at hq
    · rw [h] at hq
      rw [if_neg (by simp)] at hq
      injection hq with hq
      subst hq
      rw [App.ratingsFor, h, List.length_map]
  · rw [App.averageFor]
    norm_num [List.filter]
    exact hval4

/-- C6 witness: on the two stored ratings 3 and 5 for movie 7 the
returned average is exactly 4, and the rounded mean 4/3 lies within half
an ulp of 4/3. -/
theorem C6_witness :
    App.averageFor [⟨1, 7, 3⟩, ⟨2, 7, 5⟩] 7 = some 4
    ∧ |App.roundToNearestDouble ((4 : ℚ) / 3) - 4 / 3|
        ≤ 2 ^ (Int.log 2 ((4 : ℚ) / 3) - 53) := by
  have h := C6_average_rounded [⟨1, 7, 3⟩, ⟨2, 7, 5⟩] 7
  exact ⟨h.2.2.2, h.2.2.1 (4 / 3) (by norm_num)⟩

/-- C9: with a genre filter id (a nonempty numeric string) other than
"0" supplied, the search results are exactly the remote results whose
reported genre-id list contains that id; with genre "0" or no genre
argument the remote results pass through unfiltered. -/
theorem C9_search_genre_filter (remote : List App.MovieResult) (g : String)
    (gid : Int) (hg : App.pyToInt g = some gid) (hg0 : g ≠ "0")
    (hne : g ≠ "") :
    App.search_results (some g) remote
      = Except.ok (remote.filter (fun m => m.genre_ids.contains gid))
    ∧ (∀ m, m ∈ remote.filter (fun m => m.genre_ids.contains gid)
        ↔ m ∈ remote ∧ gid ∈ m.genre_ids)
    ∧ App.search_results (some "0") remote = Except.ok remote
    ∧ App.search_results none remote = Except.ok remote := by
  refine ⟨?_, ?_, ?_, rfl⟩
  · have hempty : g.isEmpty = false := by
      rcases h : g.isEmpty with _ | _
      · rfl
      · exact absurd ((String.isEmpty_iff g).mp h) hne
    have hbne : (g != "0") = true := bne_iff_ne.mpr hg0
    rw [App.search_results, hempty, hbne]
    simp [hg]
  · intro m
    simp [List.mem_filter, List.elem_iff]
  · rfl

/-- Counting rows of a pair distributes over cons. -/
theorem ratingCount_cons (r : App.RatingRow) (st : List App.RatingRow)
    (uid mid : Nat) :
    App.ratingCount (r :: st) uid mid
      = (if r.isPair uid mid then 1 else 0) + App.ratingCount st uid mid := by
  rw [App.ratingCount, App.ratingCount, List.filter_cons]
  cases h : r.isPair uid mid <;> simp [h, Nat.add_comm]

/-- Counting rows of a pair distributes over append. -/
theorem ratingCount_append (l1 l2 : List App.RatingRow) (uid mid : Nat) :
    App.ratingCount (l1 ++ l2) uid mid
      = App.ratingCount l1 uid mid + App.ratingCount l2 uid mid := by
  rw [App.ratingCount, App.ratingCount, App.ratingCount,
    List.filter_append, List.length_append]

/-- The existence check `.first()` performs succeeds exactly when the
pair already has at least one stored row. -/
theorem any_pair_iff_ratingCount_pos (st : List App.RatingRow)
    (uid mid : Nat) :
    st.any (fun r => r.isPair uid mid) = true
      ↔ 0 < App.ratingCount st uid mid := by
  rw [List.any_eq_true, App.ratingCount]
  constructor
  · rintro ⟨r, hr, hp⟩
    exact List.length_pos_of_mem (List.mem_filter.mpr ⟨hr, hp⟩)
  · intro hl
    obtain ⟨r, hr⟩ := List.exists_mem_of_length_pos hl
    obtain ⟨h1, h2⟩ := List.mem_filter.mp hr
    exact ⟨r, h1, h2⟩

/-- Overwriting the rating value does not change which pair a row
belongs to. -/
theorem updateFirst_isPair (r : App.RatingRow) (v : Int) (u m : Nat) :
    ({ r with rating := v } : App.RatingRow).isPair u m = r.isPair u m := rfl

/-- The in-place overwrite leaves every pair's row count unchanged. -/
theorem ratingCount_updateFirst (st : List App.RatingRow) (uid mid : Nat)
    (v : Int) (u m : Nat) :
    App.ratingCount (App.updateFirstRating st uid mid v) u m
      = App.ratingCount st u m := by
  induction st with
  | nil => rfl
  | cons r rest ih =>
    rw [App.updateFirstRating]
    cases h : r.isPair uid mid <;>
      simp [h, ratingCount_cons, ih, updateFirst_isPair]

/-- The stored value of a pair, read past a non-matching head row. -/
theorem ratingOf_cons_of_neg (r : App.RatingRow) (st : List App.RatingRow)
    (uid mid : Nat) (h : r.isPair uid mid = false) :
    App.ratingOf (r :: st) uid mid = App.ratingOf st uid mid := by
  rw [App.ratingOf, App.ratingOf, List.find?_cons_of_neg _ (by simp [h])]

/-- The stored value of a pair when the head row matches. -/
theorem ratingOf_cons_of_pos (r : App.RatingRow) (st : List App.RatingRow)
    (uid mid : Nat) (h : r.isPair uid mid = true) :
    App.ratingOf (r :: st) uid mid = some r.rating := by
  rw [App.ratingOf,
    @List.find?_cons_of_pos _ (fun r => r.isPair uid mid) r st h]
  rfl

/-- After the in-place overwrite of an existing row, the pair reads back
the new value. -/
theorem ratingOf_updateFirst (st : List App.RatingRow) (uid mid : Nat)
    (v : Int) (h : st.any (fun r => r.isPair uid mid) = true) :
    App.ratingOf (App.updateFirstRating st uid mid v) uid mid = some v := by
  induction st with
  | nil => simp at h
  | cons r rest ih =>
    rw [App.updateFirstRating]
    cases hp : r.isPair uid mid
    · rw [if_neg (by simp [hp]), ratingOf_cons_of_neg _ _ _ _ hp]
      exact ih (by simpa [hp] using h)
    · rw [if_pos (by simp [hp])]
      exact ratingOf_cons_of_pos _ _ _ _
        ((updateFirst_isPair r v uid mid).trans hp)

/-- After appending a fresh row for a pair with no stored row, the pair
reads back the new value. -/
theorem ratingOf_append_new (st : List App.RatingRow) (uid mid : Nat)
    (v : Int) (h : st.any (fun r => r.isPair uid mid) = false) :
    App.ratingOf (st ++ [⟨uid, mid, v⟩]) uid mid = some v := by
  induction st with
  | nil =>
    rw [List.nil_append]
    exact ratingOf_cons_of_pos _ _ _ _ (by simp [App.RatingRow.isPair])
  | cons r rest ih =>
    rw [List.any_cons, Bool.or_eq_false_iff] at h
    rw [List.cons_append, ratingOf_cons_of_neg _ _ _ _ h.1]
    exact ih h.2

/-- The upsert always leaves the pair reading the just-written value. -/
theorem rate_movie_ratingOf (st : List App.RatingRow) (uid mid : Nat)
    (v : Int) :
    App.ratingOf (App.rate_movie st uid mid v) uid mid = some v := by
  rw [App.rate_movie]
  by_cases h : st.any (fun r => r.isPair uid mid) = true
  · rw [if_pos h]
    exact ratingOf_updateFirst st uid mid v h
  · rw [if_neg h]
    exact ratingOf_append_new st uid mid v (by simpa using h)

/-- Starting from at most one row for the pair, the upsert leaves
exactly one. -/
theorem rate_movie_count (st : List App.RatingRow) (uid mid : Nat) (v : Int)
    (hle : App.ratingCount st uid mid ≤ 1) :
    App.ratingCount (App.rate_movie st uid mid v) uid mid = 1 := by
  rw [App.rate_movie]
  by_cases h : st.any (fun r => r.isPair uid mid) = true
  · rw [if_pos h, ratingCount_updateFirst]
    have := (any_pair_iff_ratingCount_pos st uid mid).mp h
    omega
  · rw [if_neg h, ratingCount_append]
    have h0 : App.ratingCount st uid mid = 0 := by
      have hnot : ¬ 0 < App.ratingCount st uid mid :=
        fun hc => h ((any_pair_iff_ratingCount_pos st uid mid).mpr hc)
      omega
    rw [h0]
    simp [App.ratingCount, List.filter_cons, App.RatingRow.isPair]

/-- The upsert preserves the at-most-one-row-per-pair invariant. -/
theorem rate_movie_inv (st : List App.RatingRow) (uid mid : Nat) (v : Int)
    (hinv : App.RatingInv st) :
    App.RatingInv (App.rate_movie st uid mid v) := by
  intro u m
  by_cases hum : uid = u ∧ mid = m
  · obtain ⟨rfl, rfl⟩ := hum
    rw [rate_movie_count st uid mid v (hinv uid mid)]
  · rw [App.rate_movie]
    by_cases h : st.any (fun r => r.isPair uid mid) = true
    · rw [if_pos h, ratingCount_updateFirst]
      exact hinv u m
    · rw [if_neg h, ratingCount_append]
      have hb : ((⟨uid, mid, v⟩ : App.RatingRow).isPair u m) = false := by
        simp only [App.RatingRow.isPair, Bool.and_eq_false_iff,
          beq_eq_false_iff_ne]
        exact not_and_or.mp hum
      have h1 : App.ratingCount [⟨uid, mid, v⟩] u m = 0 := by
        simp [App.ratingCount, List.filter_cons, hb]
      rw [h1]
      simpa using hinv u m

/-- Every sequence of rate actions preserves the invariant. -/
theorem applyRatings_inv (st : List App.RatingRow)
    (ops : List (Nat × Nat × Int)) (hinv : App.RatingInv st) :
    App.RatingInv (App.applyRatings st ops) := by
  induction ops generalizing st with
  | nil => exact hinv
  | cons op rest ih => exact ih _ (rate_movie_inv _ _ _ _ hinv)

/-- C2: starting from a ratings table with at most one row per pair,
upserting (uid, mid) with v1 and then v2 leaves exactly one row for the
pair and it reads back v2; a single upsert preserves the uniqueness
invariant, and hence so does every sequence of rating operations. -/
theorem C2_rating_upsert (st : List App.RatingRow) (uid mid : Nat)
    (v1 v2 : Int) (hinv : App.RatingInv st) :
    App.ratingCount
        (App.rate_movie (App.rate_movie st uid mid v1) uid mid v2) uid mid = 1
    ∧ App.ratingOf
        (App.rate_movie (App.rate_movie st uid mid v1) uid mid v2) uid mid
        = some v2
    ∧ App.RatingInv (App.rate_movie (App.rate_movie st uid mid v1) uid mid v2)
    ∧ ∀ ops, App.RatingInv (App.applyRatings st ops) := by
  have h1 := rate_movie_inv st uid mid v1 hinv
  exact ⟨rate_movie_count _ uid mid v2 (h1 uid mid),
    rate_movie_ratingOf _ uid mid v2,
    rate_movie_inv _ uid mid v2 h1,
    fun ops => applyRatings_inv st ops hinv⟩

/-- C2 witness: rating movie 42 as user 1 with 3 then 5 leaves one row
reading 5. -/
theorem C2_witness :
    App.ratingOf (App.rate_movie (App.rate_movie [] 1 42 3) 1 42 5) 1 42
      = some 5
    ∧ App.ratingCount (App.rate_movie (App.rate_movie [] 1 42 3) 1 42 5) 1 42
      = 1 := by
  have h := C2_rating_upsert [] 1 42 3 5
    (fun u m => by simp [App.ratingCount])
  exact ⟨h.2.1, h.1⟩

/-- Counting favorite rows of a pair distributes over cons. -/
theorem favCount_cons (f : App.FavRow) (st : List App.FavRow)
    (uid mid : Nat) :
    App.favCount (f :: st) uid mid
      = (if f.isPair uid mid then 1 else 0) + App.favCount st uid mid := by
  rw [App.favCount, App.favCount, List.filter_cons]
  cases h : f.isPair uid mid <;> simp [h, Nat.add_comm]

/-- Counting favorite rows of a pair distributes over append. -/
theorem favCount_append (l1 l2 : List App.FavRow) (uid mid : Nat) :
    App.favCount (l1 ++ l2) uid mid
      = App.favCount l1 uid mid + App.favCount l2 uid mid := by
  rw [App.favCount, App.favCount, App.favCount,
    List.filter_append, List.length_append]

/-- The `.first()` existence check on favorites succeeds exactly when
the pair has at least one stored row. -/
theorem any_pair_iff_favCount_pos (st : List App.FavRow) (uid mid : Nat) :
    st.any (fun f => f.isPair uid mid) = true
      ↔ 0 < App.favCount st uid mid := by
  rw [List.any_eq_true, App.favCount]
  constructor
  · rintro ⟨f, hf, hp⟩
    exact List.length_pos_of_mem (List.mem_filter.mpr ⟨hf, hp⟩)
  · intro hl
    obtain ⟨f, hf⟩ := List.exists_mem_of_length_pos hl
    obtain ⟨h1, h2⟩ := List.mem_filter.mp hf
    exact ⟨f, h1, h2⟩

/-- Deleting the `.first()` match removes exactly one row of the pair. -/
theorem favCount_eraseFirst (st : List App.FavRow) (uid mid : Nat) :
    App.favCount (App.eraseFirstFav st uid mid) uid mid
      = App.favCount st uid mid - 1 := by
  induction st with
  | nil => rfl
  | cons f rest ih =>
    rw [App.eraseFirstFav]
    cases h : f.isPair uid mid
    · rw [if_neg (by simp [h]), favCount_cons, favCount_cons, ih, h]
      simp
    · rw [if_pos (by simp [h]), favCount_cons, h]
      simp

/-- Adding a favorite over a table with at most one row for the pair
leaves exactly one row for it. -/
theorem add_favorite_count (st : List App.FavRow) (uid mid : Nat)
    (hle : App.favCount st uid mid ≤ 1) :
    App.favCount (App.add_favorite st uid mid).1 uid mid = 1 := by
  rw [App.add_favorite]
  by_cases h : st.any (fun f => f.isPair uid mid) = true
  · rw [if_pos h]
    show App.favCount st uid mid = 1
    have := (any_pair_iff_favCount_pos st uid mid).mp h
    omega
  · rw [if_neg h]
    have h0 : App.favCount st uid mid = 0 := by
      have hnot : ¬ 0 < App.favCount st uid mid :=
        fun hc => h ((any_pair_iff_favCount_pos st uid mid).mpr hc)
      omega
    show App.favCount (st ++ [⟨uid, mid⟩]) uid mid = 1
    rw [favCount_append, h0]
    simp [App.favCount, List.filter_cons, App.FavRow.isPair]

/-- Adding a favorite preserves the at-most-one-row-per-pair invariant. -/
theorem add_favorite_inv (st : List App.FavRow) (uid mid : Nat)
    (hinv : App.FavInv st) :
    App.FavInv (App.add_favorite st uid mid).1 := by
  intro u m
  by_cases hum : uid = u ∧ mid = m
  · obtain ⟨rfl, rfl⟩ := hum
    rw [add_favorite_count st uid mid (hinv uid mid)]
  · rw [App.add_favorite]
    by_cases h : st.any (fun f => f.isPair uid mid) = true
    · rw [if_pos h]
      exact hinv u m
    · rw [if_neg h]
      show App.favCount (st ++ [⟨uid, mid⟩]) u m ≤ 1
      rw [favCount_append]
      have hb : ((⟨uid, mid⟩ : App.FavRow).isPair u m) = false := by
        simp only [App.FavRow.isPair, Bool.and_eq_false_iff,
          beq_eq_false_iff_ne]
        exact not_and_or.mp hum
      have h1 : App.favCount [⟨uid, mid⟩] u m = 0 := by
        simp [App.favCount, List.filter_cons, hb]
      rw [h1]
      simpa using hinv u m

/-- C5: over a favorites table with at most one row per pair — adding a
favorite leaves exactly one row for the pair and a second add is the
reported no-op leaving the table as it was; removing after adding
leaves zero rows for the pair and reports a deletion; removing when the
pair has no row reports not-found and changes nothing; adding preserves
the uniqueness invariant. -/
theorem C5_favorite_lifecycle (st : List App.FavRow) (uid mid : Nat)
    (hinv : App.FavInv st) :
    App.favCount (App.add_favorite st uid mid).1 uid mid = 1
    ∧ App.add_favorite (App.add_favorite st uid mid).1 uid mid
        = ((App.add_favorite st uid mid).1, false)
    ∧ App.favCount
        (App.remove_favorite (App.add_favorite st uid mid).1 uid mid).1
        uid mid = 0
    ∧ (App.remove_favorite (App.add_favorite st uid mid).1 uid mid).2 = true
    ∧ (App.favCount st uid mid = 0
        → App.remove_favorite st uid mid = (st, false))
    ∧ App.FavInv (App.add_favorite st uid mid).1 := by
  have hcount := add_favorite_count st uid mid (hinv uid mid)
  have hany : (App.add_favorite st uid mid).1.any
      (fun f => f.isPair uid mid) = true :=
    (any_pair_iff_favCount_pos _ uid mid).mpr (by omega)
  refine ⟨hcount, ?_, ?_, ?_, ?_, add_favorite_inv st uid mid hinv⟩
  · rw [App.add_favorite, if_pos hany]
  · rw [App.remove_favorite, if_pos hany]
    rw [favCount_eraseFirst, hcount]
  · rw [App.remove_favorite, if_pos hany]
  · intro h0
    have hany' : ¬ st.any (fun f => f.isPair uid mid) = true := by
      intro hc
      have := (any_pair_iff_favCount_pos st uid mid).mp hc
      omega
    rw [App.remove_favorite, if_neg hany']

/-- C5 witness: add, add again, then remove for (1, 42) on an empty
table: one row after the first add, a no-op second add, zero rows after
removal, and a remove on the empty table is a reported no-op. -/
theorem C5_witness :
    App.favCount (App.add_favorite [] 1 42).1 1 42 = 1
    ∧ App.add_favorite (App.add_favorite [] 1 42).1 1 42
        = ((App.add_favorite [] 1 42).1, false)
    ∧ App.favCount (App.remove_favorite (App.add_favorite [] 1 42).1 1 42).1
        1 42 = 0
    ∧ App.remove_favorite [] 1 42 = ([], false) := by
  have h := C5_favorite_lifecycle [] 1 42 (fun u m => by simp [App.favCount])
  exact ⟨h.1, h.2.1, h.2.2.1, h.2.2.2.2.1 (by simp [App.favCount])⟩

/-- C3: registration fails with the conflict rejection, creating no row,
exactly when a stored user already has the same username or the same
email; with no conflicting row it succeeds and the persisted credential
is the salted hash of the password, never the raw password. -/
theorem C3_register (kdf : String → String → String)
    (users : List App.UserRow) (username email password salt : String) :
    ((∃ u ∈ users, u.username = username ∨ u.email = email) →
      App.register kdf users username email password salt = (users, false))
    ∧ ((¬ ∃ u ∈ users, u.username = username ∨ u.email = email) →
      App.register kdf users username email password salt
        = (users ++ [⟨username, email,
            App.Credential.hashed salt (kdf password salt)⟩], true)
      ∧ ∀ p, App.generate_password_hash kdf salt password
          ≠ App.Credential.raw p) := by
  have hany : users.any
        (fun u => u.username == username || u.email == email) = true
      ↔ ∃ u ∈ users, u.username = username ∨ u.email = email := by
    simp [List.any_eq_true]
  constructor
  · intro hex
    rw [App.register, if_pos (hany.mpr hex)]
  · intro hnex
    have hne : ¬ users.any
        (fun u => u.username == username || u.email == email) = true :=
      fun hc => hnex (hany.mp hc)
    rw [App.register, if_neg hne]
    exact ⟨rfl, fun p h => App.Credential.noConfusion h⟩

/-- C3 witness: registering alice on an empty table stores her hashed
credential; a second registration reusing the username is rejected and
leaves the table unchanged. -/
theorem C3_witness :
    App.register concatKdf [] "alice" "a@mail.test" "pw" "s1"
      = ([⟨"alice", "a@mail.test", App.Credential.hashed "s1" "pw#s1"⟩], true)
    ∧ App.register concatKdf
        [⟨"alice", "a@mail.test", App.Credential.hashed "s1" "pw#s1"⟩]
        "alice" "b@mail.test" "pw2" "s2"
      = ([⟨"alice", "a@mail.test", App.Credential.hashed "s1" "pw#s1"⟩],
         false) := by
  have h1 := (C3_register concatKdf [] "alice" "a@mail.test" "pw" "s1").2
    (by simp)
  have h2 := (C3_register concatKdf
    [⟨"alice", "a@mail.test", App.Credential.hashed "s1" "pw#s1"⟩]
    "alice" "b@mail.test" "pw2" "s2").1
    ⟨⟨"alice", "a@mail.test", App.Credential.hashed "s1" "pw#s1"⟩,
      by simp, Or.inl rfl⟩
  exact ⟨h1.1, h2⟩

/-- C4: the claim's iff fails on the code when the identifier matches
one user's username and another user's email: with the first stored
user "x" (wrong password for "pw") shadowing bob, whose email is "x"
and whose password is "pw", some stored user matches the identifier
with a verifying password, yet authentication fails. -/
theorem C4_counterexample :
    App.login concatKdf
      [⟨"x", "a@mail.test", App.Credential.hashed "s" "other#s"⟩,
       ⟨"bob", "x", App.Credential.hashed "s" "pw#s"⟩] "x" "pw" = none
    ∧ ∃ u ∈ [⟨"x", "a@mail.test", App.Credential.hashed "s" "other#s"⟩,
        ⟨"bob", "x", App.Credential.hashed "s" "pw#s"⟩],
        ((u : App.UserRow).username = "x" ∨ u.email = "x")
        ∧ App.check_password_hash concatKdf u.password_hash "pw" = true := by
  refine ⟨by rfl, ⟨"bob", "x", App.Credential.hashed "s" "pw#s"⟩,
    by simp, Or.inr rfl, by rfl⟩

/-- C4 (amended): whenever authentication succeeds, the returned user is
stored, matches the identifier by username or email, and the password
verifies against that user's hash — it never succeeds on a wrong
password, and failure is the single uniform `none` outcome; and when at
most one stored user matches the identifier, authentication succeeds if
and only if some stored user matches the identifier and the password
verifies against that user's hash. -/
theorem C4_authenticate (kdf : String → String → String)
    (users : List App.UserRow) (identifier password : String) :
    (∀ u, App.login kdf users identifier password = some u →
      u ∈ users ∧ (u.username = identifier ∨ u.email = identifier)
      ∧ App.check_password_hash kdf u.password_hash password = true)
    ∧ ((∀ u1, u1 ∈ users → ∀ u2, u2 ∈ users →
        (u1.username = identifier ∨ u1.email = identifier) →
        (u2.username = identifier ∨ u2.email = identifier) → u1 = u2) →
      ((App.login kdf users identifier password).isSome
        ↔ ∃ u ∈ users, (u.username = identifier ∨ u.email = identifier)
          ∧ App.check_password_hash kdf u.password_hash password = true)) := by
  have main : ∀ u, App.login kdf users identifier password = some u →
      u ∈ users ∧ (u.username = identifier ∨ u.email = identifier)
      ∧ App.check_password_hash kdf u.password_hash password = true := by
    intro u hu
    rw [App.login] at hu
    cases hfind : users.find?
        (fun u => u.username == identifier || u.email == identifier) with
    | none => rw [hfind] at hu; cases hu
    | some w =>
      simp only [hfind] at hu
      by_cases hc : App.check_password_hash kdf w.password_hash password
          = true
      · rw [if_pos hc] at hu
        injection hu with hu
        subst hu
        have hw := List.find?_some hfind
        refine ⟨List.mem_of_find?_eq_some hfind, ?_, hc⟩
        simpa using hw
      · rw [if_neg hc] at hu
        cases hu
  refine ⟨main, fun huniq => ⟨?_, ?_⟩⟩
  · intro hs
    obtain ⟨u, hu⟩ := Option.isSome_iff_exists.mp hs
    obtain ⟨hmem, hmatch, hc⟩ := main u hu
    exact ⟨u, hmem, hmatch, hc⟩
  · rintro ⟨u, hmem, hmatch, hc⟩
    have hpu : (fun x : App.UserRow =>
        x.username == identifier || x.email == identifier) u = true := by
      simpa using hmatch
    have hsome : (users.find? (fun x => x.username == identifier
        || x.email == identifier)).isSome :=
      List.find?_isSome.mpr ⟨u, hmem, hpu⟩
    obtain ⟨w, hw⟩ := Option.isSome_iff_exists.mp hsome
    have hpw := List.find?_some hw
    have hwmem := List.mem_of_find?_eq_some hw
    have hww : w = u :=
      huniq w hwmem u hmem (by simpa using hpw) hmatch
    subst hww
    rw [App.login]
    simp only [hw, if_pos hc, Option.isSome_some]

/-- C4 witness: bob logs in by email with the right password and is
returned; the returned user matches the amended characterization. -/
theorem C4_witness :
    App.login concatKdf
      [⟨"bob", "b@mail.test", App.Credential.hashed "s" "pw#s"⟩]
      "b@mail.test" "pw"
      = some ⟨"bob", "b@mail.test", App.Credential.hashed "s" "pw#s"⟩
    ∧ (⟨"bob", "b@mail.test", App.Credential.hashed "s" "pw#s"⟩ :
        App.UserRow).email = "b@mail.test" := by
  have h := (C4_authenticate concatKdf
    [⟨"bob", "b@mail.test", App.Credential.hashed "s" "pw#s"⟩]
    "b@mail.test" "pw").2
    (by rintro u1 hu1 u2 hu2 h1 h2; simp at hu1 hu2; rw [hu1, hu2])
  have hs : (App.login concatKdf
      [⟨"bob", "b@mail.test", App.Credential.hashed "s" "pw#s"⟩]
      "b@mail.test" "pw").isSome :=
    h.mpr ⟨⟨"bob", "b@mail.test", App.Credential.hashed "s" "pw#s"⟩,
      by simp, Or.inr rfl, by rfl⟩
  refine ⟨?_, rfl⟩
  revert hs
  decide

/-- C9 witness: searching with genre id 28 keeps exactly the results
whose genre list contains 28. -/
theorem C9_witness :
    App.search_results (some "28") [⟨1, [28, 12]⟩, ⟨2, [16]⟩]
      = Except.ok [⟨1, [28, 12]⟩] := by
  have h := (C9_search_genre_filter [⟨1, [28, 12]⟩, ⟨2, [16]⟩] "28" 28
    (by decide) (by decide) (by decide)).1
  simpa using h
